import Mathlib

/-!
Verification of the clear-terms backend core: the asynchronous job pipeline
(`services/job-processor.js`), the bounded LRU analysis cache
(`enforceCacheLimit` in the server file), the bounded job store
(`utils/job-manager.js`), the credit ledger (`services/user-service.js`)
and the HTTP handlers `POST /scan` and `GET /report`.

JavaScript `Map` objects and plain objects keyed by strings are embedded as
association lists `List (String × β)` with unique keys; `Map.get` / property
read is `lookupKey`, `Map.set` / property write is `setKey` (replace in
place, else append, matching JS insertion-order iteration), `Map.delete` is
`delKey`.  Timestamps are naturals (milliseconds).  Credit balances are
integers, as JS numbers are.  External collaborators (the Gemini provider,
JSON parsing of its response, URL parsing, hashing, id generation) are
modelled as oracle fields of an `Env` record; everything else is translated
statement by statement from the source.
-/

namespace ClearTerms

/-- JS `map.get(k)` / `obj[k]` on a string-keyed table. -/
def lookupKey {β : Type} : List (String × β) → String → Option β
  | [], _ => none
  | (k', v) :: rest, k => if k' = k then some v else lookupKey rest k

/-- JS `map.set(k, v)` / `obj[k] = v`: overwrite in place, else append. -/
def setKey {β : Type} (k : String) (v : β) : List (String × β) → List (String × β)
  | [] => [(k, v)]
  | (k', v') :: rest => if k' = k then (k, v) :: rest else (k', v') :: setKey k v rest

/-- JS `map.delete(k)`. -/
def delKey {β : Type} (k : String) : List (String × β) → List (String × β)
  | [] => []
  | (k', v) :: rest => if k' = k then rest else (k', v) :: delKey k rest

theorem lookupKey_setKey_self {β : Type} (l : List (String × β)) (k : String) (v : β) :
    lookupKey (setKey k v l) k = some v := by
  induction l with
  | nil => simp [setKey, lookupKey]
  | cons hd tl ih =>
    by_cases h : hd.1 = k
    · simp [setKey, lookupKey, h]
    · simpa [setKey, lookupKey, h] using ih

theorem length_setKey_le {β : Type} (k : String) (v : β) (l : List (String × β)) :
    (setKey k v l).length ≤ l.length + 1 := by
  induction l with
  | nil => simp [setKey]
  | cons hd tl ih =>
    by_cases h : hd.1 = k
    · simp [setKey, h]
    · simp only [setKey, h, if_false, List.length_cons]
      omega

theorem length_setKey_of_lookup_none {β : Type} {l : List (String × β)} {k : String}
    (h : lookupKey l k = none) (v : β) : (setKey k v l).length = l.length + 1 := by
  induction l with
  | nil => simp [setKey]
  | cons hd tl ih =>
    by_cases hh : hd.1 = k
    · simp [lookupKey, hh] at h
    · simp only [lookupKey, hh, if_false] at h
      simp [setKey, hh, ih h]

/-! ### Generic sorted eviction

Both `enforceCacheLimit` (server file, lines 142-166) and
`JobManager.removeOldest` (job-manager.js, lines 77-85) take
`Array.from(table.entries())`, sort ascending by a numeric weight, and
delete the keys of the first `k` sorted entries from the table.  `Array
.prototype.sort` is stable; `List.insertionSort` is the stable sort used
here. -/

/-- Comparator `(a, b) => weight(a) - weight(b) ≤ 0` on table entries. -/
def byWeight {β : Type} (w : β → Nat) (a b : String × β) : Prop := w a.2 ≤ w b.2

instance {β : Type} (w : β → Nat) : DecidableRel (byWeight w) :=
  fun a b => inferInstanceAs (Decidable (w a.2 ≤ w b.2))

instance {β : Type} (w : β → Nat) : IsTotal (String × β) (byWeight w) :=
  ⟨fun a b => Nat.le_total (w a.2) (w b.2)⟩

instance {β : Type} (w : β → Nat) : IsTrans (String × β) (byWeight w) :=
  ⟨fun _ _ _ => Nat.le_trans⟩

/-- The entries sorted ascending by weight (oldest first). -/
def sortedByWeight {β : Type} (w : β → Nat) (l : List (String × β)) : List (String × β) :=
  List.insertionSort (byWeight w) l

/-- Keys of the first `k` sorted entries: the keys the JS loop deletes. -/
def doomedKeys {β : Type} (w : β → Nat) (k : Nat) (l : List (String × β)) : List String :=
  ((sortedByWeight w l).take k).map Prod.fst

/-- Sort the table by weight ascending and delete the first `k` keys from
the table (survivors keep their original iteration order, as in a JS Map). -/
def evictOldest {β : Type} (w : β → Nat) (k : Nat) (l : List (String × β)) :
    List (String × β) :=
  l.filter (fun p => !(decide (p.1 ∈ doomedKeys w k l)))

theorem sortedByWeight_perm {β : Type} (w : β → Nat) (l : List (String × β)) :
    List.Perm (sortedByWeight w l) l :=
  List.perm_insertionSort _ l

theorem drop_not_doomed {β : Type} (w : β → Nat) (k : Nat) {l : List (String × β)}
    (hnd : (l.map Prod.fst).Nodup) :
    ∀ p ∈ (sortedByWeight w l).drop k, p.1 ∉ doomedKeys w k l := by
  intro p hp hmem
  have hnds : ((sortedByWeight w l).map Prod.fst).Nodup :=
    (((sortedByWeight_perm w l).map Prod.fst).nodup_iff).mpr hnd
  have hsplit : (sortedByWeight w l).map Prod.fst =
      ((sortedByWeight w l).take k).map Prod.fst ++
        ((sortedByWeight w l).drop k).map Prod.fst := by
    rw [← List.map_append, List.take_append_drop]
  rw [hsplit] at hnds
  exact (List.nodup_append.mp hnds).2.2 hmem (List.mem_map_of_mem Prod.fst hp)

theorem evictOldest_perm_drop {β : Type} (w : β → Nat) (k : Nat)
    {l : List (String × β)} (hnd : (l.map Prod.fst).Nodup) :
    List.Perm (evictOldest w k l) ((sortedByWeight w l).drop k) := by
  have hperm : List.Perm (sortedByWeight w l) l := sortedByWeight_perm w l
  have hfilter : (sortedByWeight w l).filter
      (fun p => !(decide (p.1 ∈ doomedKeys w k l))) = (sortedByWeight w l).drop k := by
    conv_lhs => rw [← List.take_append_drop k (sortedByWeight w l)]
    rw [List.filter_append]
    have h1 : ((sortedByWeight w l).take k).filter
        (fun p => !(decide (p.1 ∈ doomedKeys w k l))) = [] := by
      apply List.filter_eq_nil_iff.mpr
      intro p hp
      simp only [Bool.not_eq_true', decide_eq_false_iff_not, not_not]
      exact List.mem_map_of_mem Prod.fst hp
    have h2 : ((sortedByWeight w l).drop k).filter
        (fun p => !(decide (p.1 ∈ doomedKeys w k l))) = (sortedByWeight w l).drop k := by
      apply List.filter_eq_self.mpr
      intro p hp
      simp [drop_not_doomed w k hnd p hp]
    rw [h1, h2, List.nil_append]
  exact ((hperm.filter _).symm).trans (by rw [hfilter])

theorem evictOldest_length {β : Type} (w : β → Nat) (k : Nat)
    {l : List (String × β)} (hnd : (l.map Prod.fst).Nodup) :
    (evictOldest w k l).length = l.length - k := by
  rw [(evictOldest_perm_drop w k hnd).length_eq, List.length_drop,
    (sortedByWeight_perm w l).length_eq]

/-- Every entry the pass removes is no younger (by weight) than every entry
it keeps. -/
theorem evictOldest_weight_le {β : Type} (w : β → Nat) (k : Nat)
    {l : List (String × β)} (hnd : (l.map Prod.fst).Nodup) :
    ∀ p ∈ l, p ∉ evictOldest w k l → ∀ q ∈ evictOldest w k l, w p.2 ≤ w q.2 := by
  intro p hp hpn q hq
  have hperm : List.Perm (sortedByWeight w l) l := sortedByWeight_perm w l
  have hsort : List.Sorted (byWeight w) (sortedByWeight w l) :=
    List.sorted_insertionSort _ l
  have hqdrop : q ∈ (sortedByWeight w l).drop k :=
    ((evictOldest_perm_drop w k hnd).mem_iff).mp hq
  have hpdoom : p.1 ∈ doomedKeys w k l := by
    by_contra hno
    exact hpn (List.mem_filter.mpr ⟨hp, by simp [hno]⟩)
  have hps : p ∈ sortedByWeight w l := hperm.mem_iff.mpr hp
  have hptake : p ∈ (sortedByWeight w l).take k := by
    rcases List.mem_append.mp
        (by rw [List.take_append_drop k (sortedByWeight w l)]; exact hps) with h | h
    · exact h
    · exact absurd hpdoom (drop_not_doomed w k hnd p h)
  have hpairs := (List.pairwise_append.mp
    (by rw [List.take_append_drop k (sortedByWeight w l)]; exact hsort)).2.2
  exact hpairs p hptake q hqdrop

theorem evictOldest_sublist {β : Type} (w : β → Nat) (k : Nat)
    (l : List (String × β)) : (evictOldest w k l).Sublist l :=
  List.filter_sublist l

/-! ### Credit ledger (`services/user-service.js`)

Each operation acquires the advisory lock, reads the whole user table,
mutates, writes it back and releases the lock; lock acquisition and backend
I/O are assumed to succeed (their failures propagate as `StoreUnavailable`
and are outside these claims).  A thrown JS `Error` is an `Except.error`;
errors thrown before the write leave the persisted table unchanged, which
the model expresses by returning the table alongside the result. -/

/-- The `INITIAL_CREDITS` constant of `user-service.js`. -/
def INITIAL_CREDITS : Int := 10

/-- One entry of `user.purchaseHistory` (field `at` is renamed
`purchasedAt`: `at` is a Lean keyword). -/
structure Purchase where
  paymentIntentId : String
  scansAdded : Int
  creditsBefore : Int
  creditsAfter : Int
  purchasedAt : Nat
deriving DecidableEq, Repr

/-- One record of `data.users` (the optional `stripeCustomerId` field is
omitted: no claim mentions it).  A missing `purchaseHistory` is the empty
list. -/
structure UserRec where
  deviceId : String
  supportKey : String
  remainingScans : Int
  totalScansUsed : Int
  createdAt : Nat
  lastUsedAt : Nat
  plan : String
  purchaseHistory : List Purchase
deriving DecidableEq, Repr

/-- The persisted `data.users` table. -/
abbrev Users := List (String × UserRec)

/-- The distinguishable `Error` messages thrown by `UserService`. -/
inductive LedgerErr where
  | deviceIdRequired
  | userNotFound
  | quotaExceeded
  | amountMustBePositive
  | purchaseFieldsRequired
deriving DecidableEq, Repr

/-- `UserService._generateSupportKey` (`CT-XXXX-YYYY`).  When the deviceId
has no second dash-separated segment the JS code throws a `TypeError`; the
model uses the empty string there (no claim exercises malformed ids). -/
def generateSupportKey (deviceId : String) : String :=
  let parts := deviceId.splitOn "-"
  let p1 := ((parts.getD 0 "").take 4).toUpper
  let p2 := ((parts.getD 1 "").take 4).toUpper
  "CT-" ++ p1 ++ "-" ++ p2

/-- `UserService.getUser` (user-service.js lines 28-41). -/
def getUser (users : Users) (deviceId : String) : Except LedgerErr (Option UserRec) :=
  if deviceId = "" then .error .deviceIdRequired
  else .ok (lookupKey users deviceId)

/-- `UserService.createUser` (user-service.js lines 57-96). -/
def createUser (users : Users) (deviceId : String) (now : Nat) :
    Except LedgerErr UserRec × Users :=
  if deviceId = "" then (.error .deviceIdRequired, users)
  else
    match lookupKey users deviceId with
    | some u => (.ok u, users)
    | none =>
      let newUser : UserRec :=
        { deviceId := deviceId
          supportKey := generateSupportKey deviceId
          remainingScans := INITIAL_CREDITS
          totalScansUsed := 0
          createdAt := now
          lastUsedAt := now
          plan := "free"
          purchaseHistory := [] }
      (.ok newUser, setKey deviceId newUser users)

/-- `UserService.decrementCredits` (user-service.js lines 111-141). -/
def decrementCredits (users : Users) (deviceId : String) (now : Nat) :
    Except LedgerErr Int × Users :=
  if deviceId = "" then (.error .deviceIdRequired, users)
  else
    match lookupKey users deviceId with
    | none => (.error .userNotFound, users)
    | some u =>
      if u.remainingScans ≤ 0 then (.error .quotaExceeded, users)
      else
        let u' := { u with remainingScans := u.remainingScans - 1
                           totalScansUsed := u.totalScansUsed + 1
                           lastUsedAt := now }
        (.ok u'.remainingScans, setKey deviceId u' users)

/-- `UserService.addCredits` (user-service.js lines 146-177). -/
def addCredits (users : Users) (deviceId : String) (amount : Int) (now : Nat) :
    Except LedgerErr Int × Users :=
  if deviceId = "" then (.error .deviceIdRequired, users)
  else if amount ≤ 0 then (.error .amountMustBePositive, users)
  else
    match lookupKey users deviceId with
    | none => (.error .userNotFound, users)
    | some u =>
      let u' := { u with remainingScans := u.remainingScans + amount
                         lastUsedAt := now
                         plan := "premium" }
      (.ok u'.remainingScans, setKey deviceId u' users)

/-- `UserService._calculateScansFromAmount`: the fixed price table
2 euro = 10 scans, 5 euro = 30 scans, 10 euro = 100 scans, else 0. -/
def calculateScansFromAmount (amount : Int) : Int :=
  if amount = 2 then 10
  else if amount = 5 then 30
  else if amount = 10 then 100
  else 0

/-- Argument object of `recordPurchase` (`status` defaults to
`"completed"` at the call site destructuring). -/
structure PurchaseData where
  stripePaymentIntentId : String
  amount : Int
  status : String
deriving DecidableEq, Repr

/-- `UserService.recordPurchase` (user-service.js; `src/unnamed/part_006`
lines 221-284).  JS `!amount` is true exactly at `0` for an integral
amount, hence the `amount = 0` guard. -/
def recordPurchase (users : Users) (deviceId : String) (pd : PurchaseData) (now : Nat) :
    Except LedgerErr (UserRec × Int) × Users :=
  if deviceId = "" then (.error .deviceIdRequired, users)
  else if pd.stripePaymentIntentId = "" ∨ pd.amount = 0 then
    (.error .purchaseFieldsRequired, users)
  else
    match lookupKey users deviceId with
    | none => (.error .userNotFound, users)
    | some u =>
      let scansToAdd := calculateScansFromAmount pd.amount
      let creditsBefore := u.remainingScans
      let u1 :=
        if pd.status = "completed" then
          let grown := { u with remainingScans := u.remainingScans + scansToAdd
                                plan := "premium" }
          { grown with purchaseHistory := grown.purchaseHistory ++
              [{ paymentIntentId := pd.stripePaymentIntentId
                 scansAdded := scansToAdd
                 creditsBefore := creditsBefore
                 creditsAfter := grown.remainingScans
                 purchasedAt := now }] }
        else u
      let u2 := { u1 with lastUsedAt := now }
      (.ok (u2, if pd.status = "completed" then scansToAdd else 0),
        setKey deviceId u2 users)

/-! ### Analysis cache (server file: `enforceCacheLimit`, lines 142-166) -/

/-- `MAX_CACHE_ENTRIES` from `config/constants.js`. -/
def MAX_CACHE_ENTRIES : Nat := 1000

/-- The 24-hour `MAX_CACHE_AGE` constant of `job-processor.js`. -/
def MAX_CACHE_AGE_MS : Nat := 24 * 60 * 60 * 1000

/-- Analysis artifact metadata attached by the pipeline (step 6). -/
structure ReportMeta where
  url_hash : String
  content_hash : String
  analyzed_at : Nat
  analyzed_url : String
  model_used : String
  output_language : String
  source : String
deriving DecidableEq, Repr

/-- Parsed provider artifact.  `site_name` keeps JS truthiness (`none` for a
missing field, `some ""` falsy); `categories` records whether the field is
present and truthy. -/
structure Report where
  site_name : Option String
  categories : Bool
  metadata : Option ReportMeta
deriving DecidableEq, Repr

/-- JS truthiness of an optional string field. -/
def strTruthy : Option String → Bool
  | none => false
  | some s => !(s == "")

/-- One cache entry, per URL hash. -/
structure CacheEntry where
  url : String
  domain : String
  reports : List (String × Report)
  createdAt : Nat
  lastAccessedAt : Option Nat
deriving DecidableEq, Repr

/-- The in-memory analysis cache (`url_hash -> entry`). -/
abbrev Cache := List (String × CacheEntry)

/-- `lastAccessedAt || createdAt`, the eviction ordering key. -/
def effTime (e : CacheEntry) : Nat := e.lastAccessedAt.getD e.createdAt

/-- `enforceCacheLimit` (server file lines 142-166): below capacity it is a
no-op; otherwise it sorts by `lastAccessedAt || createdAt` ascending and
deletes the first `size - maxEntries + 1` keys. -/
def enforceCacheLimit (maxEntries : Nat) (cache : Cache) : Cache :=
  if cache.length < maxEntries then cache
  else evictOldest effTime (cache.length - maxEntries + 1) cache

/-! ### Job store (`utils/job-manager.js`) -/

/-- `MAX_JOBS_IN_MEMORY` from `config/constants.js`. -/
def MAX_JOBS_IN_MEMORY : Nat := 1000

/-- `JOB_MAX_AGE_MS` from `config/constants.js`. -/
def JOB_MAX_AGE_MS : Nat := 60 * 60 * 1000

/-- A job record, as created by `POST /scan` and mutated by the pipeline.
`creditDebited` starts absent (JS `undefined`, falsy), modelled `false`. -/
structure Job where
  status : String
  url : String
  content : String
  userLanguage : String
  deviceId : String
  result : Option Report
  error : Option String
  creditDebited : Bool
  createdAt : Nat
deriving DecidableEq, Repr

/-- The `JobManager` state: the inner `Map` plus its configuration. -/
structure JobManager where
  jobs : List (String × Job)
  maxJobs : Nat
  maxAge : Nat
deriving DecidableEq, Repr

/-- `JobManager.cleanup(force)` (job-manager.js lines 56-72): delete every
job with `createdAt < now - maxAge`, and, when forced, also every job whose
status is `done`. -/
def JobManager.cleanup (jm : JobManager) (force : Bool) (now : Nat) : JobManager :=
  { jm with jobs := jm.jobs.filter (fun p =>
      !(decide (p.2.createdAt < now - jm.maxAge) || (force && (p.2.status == "done")))) }

/-- `JobManager.removeOldest(count)` (job-manager.js lines 77-85): sort by
`createdAt` ascending and delete the first `count` keys. -/
def JobManager.removeOldest (jm : JobManager) (count : Nat) : JobManager :=
  { jm with jobs := evictOldest (fun j => j.createdAt) count jm.jobs }

/-- `JobManager.addJob` (job-manager.js lines 18-36).  When at capacity it
first runs the forced sweep and, if still at capacity, force-removes
`Math.floor(maxJobs * 0.1)` of the oldest jobs; for the configured
`maxJobs = 1000` that float expression is exactly `maxJobs / 10 = 100`.
The insertion itself is unconditional. -/
def JobManager.addJob (jm : JobManager) (id : String) (jobData : Job) (now : Nat) :
    JobManager :=
  let jm1 :=
    if jm.maxJobs ≤ jm.jobs.length then
      let jmC := jm.cleanup true now
      if jm.maxJobs ≤ jmC.jobs.length then jmC.removeOldest (jm.maxJobs / 10) else jmC
    else jm
  { jm1 with jobs := setKey id { jobData with createdAt := now } jm1.jobs }

/-- `JobManager.getJob`. -/
def JobManager.getJob (jm : JobManager) (id : String) : Option Job :=
  lookupKey jm.jobs id

/-! ### Job pipeline (`services/job-processor.js`)

`processJob(jobId, jobs, cache, primaryModel, fallbackModels, apiKey,
enforceCacheLimit, userService)` is translated statement by statement.
External calls are oracle fields of `Env`: `loadPromptTemplate` (file
read), `callGemini` (provider; may throw after exhausting fallbacks),
the JSON cleanup-and-parse of the response (lines 120-143), hashing, and
`new URL(url).hostname`.  The run is single-threaded: the job object is
shared with the store, so every mutation of `job` is visible in the final
store state.  `userService` is always passed by the server and is truthy.

The `catch` block (lines 196-211) reads the binding `deviceId`, which is
declared by `const { url, content, userLanguage, deviceId } = job` INSIDE
the `try` block (line 14) and is therefore not in scope in the `catch`
block.  When `job.creditDebited && userService` is truthy the guard
evaluates `deviceId` and throws a `ReferenceError`, which nothing catches:
the refund, `job.status = 'error'` and `job.error = ...` never execute and
the async function rejects.  The model returns that rejection in
`RunResult.rejected`. -/

/-- Observable events of one pipeline run, in program order. -/
inductive Ev where
  | statusSet (s : String)
  | debitOk
  | debitFail
  | providerCall
  | refund
deriving DecidableEq, Repr

/-- Oracle for the pipeline's external collaborators. -/
structure Env where
  now : Nat
  primaryModel : String
  urlHash : String → String
  contentHash : String → String
  loadPrompt : Except String String
  gemini : Except String String
  parseResponse : String → Except String Report
  hostname : String → Except String String
  newJobId : String
  validateUrl : String → Except String String

/-- Mid-run state: the shared job object, cache, persisted users, trace. -/
structure Mid where
  job : Job
  cache : Cache
  users : Users
  trace : List Ev

/-- System state before / after a run. -/
structure SysState where
  jobs : List (String × Job)
  cache : Cache
  users : Users
deriving DecidableEq, Repr

/-- Outcome of one `processJob` call: final state, event trace, and the
rejection message when the promise rejects instead of resolving. -/
structure RunResult where
  st : SysState
  trace : List Ev
  rejected : Option String
deriving DecidableEq, Repr

/-- The top-level `catch` block (job-processor.js lines 196-211). -/
def catchBlock (msg : String) (m : Mid) : Mid × Option String :=
  if m.job.creditDebited then
    (m, some "ReferenceError: deviceId is not defined")
  else
    ({ m with job := { m.job with status := "error", error := some msg }
              trace := m.trace ++ [Ev.statusSet "error"] }, none)

/-- Lines 166-191: store the freshly generated report in the cache.  For a
new URL hash `enforceCacheLimit()` runs first; the `domain` field then
evaluates `new URL(job.url).hostname`, whose throw (surfaced in the second
component) would reach the outer catch after the eviction already
happened. -/
def cacheStoreStep (env : Env) (maxEntries : Nat) (urlHash lang : String)
    (report : Report) (url : String) (cache : Cache) : Cache × Option String :=
  match lookupKey cache urlHash with
  | some existing =>
    (setKey urlHash { existing with reports := setKey lang report existing.reports
                                    lastAccessedAt := some env.now } cache, none)
  | none =>
    let cache1 := enforceCacheLimit maxEntries cache
    match (if url = "" then Except.ok "unknown" else env.hostname url) with
    | .error e => (cache1, some e)
    | .ok dom =>
      (cache1 ++ [(urlHash, { url := url, domain := dom, reports := [(lang, report)]
                              createdAt := env.now, lastAccessedAt := some env.now })],
        none)

/-- Lines 74-194: the cache-miss continuation — load the prompt, debit one
credit BEFORE the provider call setting `creditDebited`, call the provider,
parse and validate the artifact, attach metadata, store in cache, finish
the job.  `Sum.inr` is a thrown error together with the state at the
throw. -/
def providerPhase (env : Env) (urlHash contentHash : String) (m1 : Mid) :
    Mid ⊕ (String × Mid) :=
  let m2 := { m1 with trace := m1.trace ++ [Ev.providerCall] }
  match env.gemini with
  | .error e => .inr (e, m2)
  | .ok resp =>
    match env.parseResponse resp with
    | .error e =>
      .inr ("Impossible de parser la réponse JSON de Gemini: " ++ e, m2)
    | .ok report0 =>
      if !(strTruthy report0.site_name && report0.categories) then
        .inr ("Réponse invalide : champs obligatoires manquants", m2)
      else
        let md : ReportMeta :=
          { url_hash := urlHash
            content_hash := contentHash
            analyzed_at := env.now
            analyzed_url := if m2.job.url = "" then "unknown" else m2.job.url
            model_used := env.primaryModel
            output_language := m2.job.userLanguage
            source := "ai" }
        let report := { report0 with metadata := some md }
        match cacheStoreStep env MAX_CACHE_ENTRIES urlHash m2.job.userLanguage
            report m2.job.url m2.cache with
        | (cache', some e) => .inr (e, { m2 with cache := cache' })
        | (cache', none) =>
          .inl { m2 with cache := cache'
                         job := { m2.job with result := some report
                                              status := "done" }
                         trace := m2.trace ++ [Ev.statusSet "done"] }

def missPhase (env : Env) (urlHash contentHash : String) (m : Mid) :
    Mid ⊕ (String × Mid) :=
  match env.loadPrompt with
  | .error e => .inr (e, m)
  | .ok _ =>
    if m.job.deviceId = "" then providerPhase env urlHash contentHash m
    else
      match decrementCredits m.users m.job.deviceId env.now with
      | (.ok _, users') =>
        providerPhase env urlHash contentHash
          { m with job := { m.job with creditDebited := true }
                   users := users'
                   trace := m.trace ++ [Ev.debitOk] }
      | (.error _, _) =>
        .inr ("Impossible de décrémenter les crédits",
          { m with trace := m.trace ++ [Ev.debitFail] })

/-- Lines 49-53: mark the cached report as coming from the cache and stamp
the current content hash (this mutates the object shared with the cache). -/
def markCacheSource (contentHash : String) (r : Report) : Report :=
  match r.metadata with
  | some md =>
    { r with metadata := some { md with source := "cache", content_hash := contentHash } }
  | none => r

/-- Lines 12-194: body of the `try` block.  Cache lookup: an expired entry
is deleted and treated as a miss; a fresh entry with the requested language
is a billable hit (debit failure caught and merely logged); otherwise fall
through to the miss path. -/
def tryBody (env : Env) (m0 : Mid) : Mid ⊕ (String × Mid) :=
  let urlHash := env.urlHash m0.job.url
  let contentHash := env.contentHash m0.job.content
  match lookupKey m0.cache urlHash with
  | some entry =>
    if MAX_CACHE_AGE_MS < env.now - entry.createdAt then
      missPhase env urlHash contentHash { m0 with cache := delKey urlHash m0.cache }
    else
      match lookupKey entry.reports m0.job.userLanguage with
      | some cachedReport =>
        let r' := markCacheSource contentHash cachedReport
        let entry' :=
          { entry with
              lastAccessedAt := some env.now
              reports := setKey m0.job.userLanguage r' entry.reports }
        let m1 := { m0 with cache := setKey urlHash entry' m0.cache }
        let m2 :=
          if m1.job.deviceId = "" then m1
          else
            match decrementCredits m1.users m1.job.deviceId env.now with
            | (.ok _, users') =>
              { m1 with users := users', trace := m1.trace ++ [Ev.debitOk] }
            | (.error _, _) =>
              { m1 with trace := m1.trace ++ [Ev.debitFail] }
        .inl { m2 with
                 job := { m2.job with result := some r', status := "done" }
                 trace := m2.trace ++ [Ev.statusSet "done"] }
      | none => missPhase env urlHash contentHash m0
  | none => missPhase env urlHash contentHash m0

/-- Assemble the run result from the try-body outcome: a normal return, or
the catch block followed by either a return or a rejection. -/
def finishRun (jobId : String) (st : SysState) : Mid ⊕ (String × Mid) → RunResult
  | .inl m => ⟨⟨setKey jobId m.job st.jobs, m.cache, m.users⟩, m.trace, none⟩
  | .inr (msg, m) =>
    let c := catchBlock msg m
    ⟨⟨setKey jobId c.1.job st.jobs, c.1.cache, c.1.users⟩, c.1.trace, c.2⟩

/-- `processJob` (job-processor.js lines 7-212). -/
def processJob (env : Env) (jobId : String) (st : SysState) : RunResult :=
  match lookupKey st.jobs jobId with
  | none => ⟨st, [], none⟩
  | some job0 =>
    finishRun jobId st (tryBody env
      ⟨{ job0 with status := "running" }, st.cache, st.users, [Ev.statusSet "running"]⟩)

/-- The statuses a run assigns, in order (`job.status = ...` statements). -/
def statusTrace (t : List Ev) : List String :=
  t.filterMap (fun e => match e with | .statusSet s => some s | _ => none)

/-! ### HTTP handlers (server file, first document of `src/unnamed/part_000`) -/

/-- `MIN_CONTENT_LENGTH` from `config/constants.js`. -/
def MIN_CONTENT_LENGTH : Nat := 300

/-- `MAX_CONTENT_LENGTH` from `config/constants.js`. -/
def MAX_CONTENT_LENGTH : Nat := 500000

/-- The regex `/^[a-f0-9]+$/i` of the `GET /report` handler. -/
def isHexString (s : String) : Bool :=
  !(s == "") && s.data.all (fun c =>
    (('0' ≤ c && c ≤ '9') || ('a' ≤ c && c ≤ 'f') || ('A' ≤ c && c ≤ 'F')))

/-- Responses of the `GET /report` handler. -/
inductive ReportResp where
  | badRequest (msg : String)
  | notFound (msg : String)
  | okReport (r : Report)
deriving DecidableEq, Repr

/-- The `GET /report` handler (server file lines 330-359): query
validation, `cache.get(url_hash)`, language defaulting, and the JSON
response.  The handler performs no write whatsoever on the cache — in
particular it does not refresh `lastAccessedAt` — and never touches the
user ledger; the returned cache is the handler's (unchanged) view of it. -/
def lookupCachedReport (cache : Cache) (url_hash lang : String) :
    ReportResp × Cache :=
  if url_hash = "" then (.badRequest "url_hash requis", cache)
  else if !(isHexString url_hash) then (.badRequest "Format de hash invalide", cache)
  else
    match lookupKey cache url_hash with
    | none => (.notFound "Rapport non trouvé en cache", cache)
    | some entry =>
      let language := if lang = "fr" ∨ lang = "en" then lang else "en"
      match lookupKey entry.reports language with
      | some r => (.okReport r, cache)
      | none => (.notFound "Rapport non disponible dans cette langue", cache)

/-- Request body of `POST /scan` (absent `url` is the empty string, which
is falsy in JS like the absent field). -/
structure ScanRequest where
  url : String
  content : String
  user_language_preference : String
  deviceId : String
deriving DecidableEq, Repr

/-- Responses of the `POST /scan` handler. -/
inductive ScanResp where
  | badRequest (msg : String)
  | quotaExceeded
  | payloadTooLarge (msg : String)
  | accepted (jobId : String) (remainingScans : Int)
  | serverError
deriving DecidableEq, Repr

/-- Whole-server state seen by the handlers. -/
structure ServerState where
  jm : JobManager
  cache : Cache
  users : Users
deriving DecidableEq, Repr

/-- Outcome of one `POST /scan` request: the HTTP response, the state
after the request and its background processing, and whether the pipeline
was started for this request. -/
structure ScanOutcome where
  resp : ScanResp
  state : ServerState
  pipelineStarted : Bool
deriving Repr

/-- Continuation of the `POST /scan` handler once the user record is at
hand (server file lines 205-258): the submission-time quota gate, content
and URL validation, job creation (without debiting) and the fire-and-forget
`processJob` call. -/
def continueScan (env : Env) (req : ScanRequest) (user : UserRec) (s : ServerState) :
    ScanOutcome :=
  if user.remainingScans ≤ 0 then ⟨.quotaExceeded, s, false⟩
  else if req.content = "" then ⟨.badRequest "content requis", s, false⟩
  else if req.content.length < MIN_CONTENT_LENGTH then
    ⟨.badRequest "contenu trop court", s, false⟩
  else if MAX_CONTENT_LENGTH < req.content.length then
    ⟨.payloadTooLarge "contenu trop long", s, false⟩
  else
    let validated : Except String String :=
      if req.url ≠ "" ∧ 0 < req.url.trim.length then env.validateUrl req.url
      else .ok (if req.url = "" then "unknown" else req.url)
    match validated with
    | .error e => ⟨.badRequest e, s, false⟩
    | .ok validatedUrl =>
      let userLanguage :=
        if req.user_language_preference = "fr" ∨ req.user_language_preference = "en"
        then req.user_language_preference else "en"
      let jobId := env.newJobId
      let jobData : Job :=
        { status := "queued", url := validatedUrl, content := req.content
          userLanguage := userLanguage, deviceId := req.deviceId
          result := none, error := none, creditDebited := false, createdAt := 0 }
      let jm1 := s.jm.addJob jobId jobData env.now
      let run := processJob env jobId ⟨jm1.jobs, s.cache, s.users⟩
      ⟨.accepted jobId user.remainingScans,
        ⟨{ jm1 with jobs := run.st.jobs }, run.st.cache, run.st.users⟩, true⟩

/-- The `POST /scan` handler (server file lines 185-264): deviceId check,
`getUser` with automatic `createUser` for unknown owners, then
`continueScan`. -/
def submitJob (env : Env) (req : ScanRequest) (s : ServerState) : ScanOutcome :=
  if req.deviceId = "" then ⟨.badRequest "deviceId requis", s, false⟩
  else
    match lookupKey s.users req.deviceId with
    | some user => continueScan env req user s
    | none =>
      match createUser s.users req.deviceId env.now with
      | (.ok user, users1) => continueScan env req user { s with users := users1 }
      | (.error _, _) => ⟨.serverError, s, false⟩

/-! ### Claim theorems -/

/-- C3: `decrementCredits` fails with `USER_NOT_FOUND` when no record
exists, fails with `QUOTA_EXCEEDED` at zero balance leaving the table (and
hence the balance, still 0) unchanged, and otherwise decrements the balance
by exactly 1 (staying non-negative), increments `totalScansUsed` by exactly
1, persists the record and returns the new balance. -/
theorem claim_C3_decrement (users : Users) (d : String) (now : Nat) (hd : d ≠ "") :
    (lookupKey users d = none →
      decrementCredits users d now = (.error .userNotFound, users)) ∧
    (∀ u : UserRec, lookupKey users d = some u → u.remainingScans = 0 →
      decrementCredits users d now = (.error .quotaExceeded, users)) ∧
    (∀ u : UserRec, lookupKey users d = some u → 0 < u.remainingScans →
      (decrementCredits users d now).1 = .ok (u.remainingScans - 1) ∧
      lookupKey (decrementCredits users d now).2 d = some
        { u with remainingScans := u.remainingScans - 1
                 totalScansUsed := u.totalScansUsed + 1
                 lastUsedAt := now } ∧
      0 ≤ u.remainingScans - 1) := by
  refine ⟨?_, ?_, ?_⟩
  · intro h
    simp [decrementCredits, hd, h]
  · intro u hu hz
    simp [decrementCredits, hd, hu, hz]
  · intro u hu hpos
    have hnle : ¬ u.remainingScans ≤ 0 := by omega
    refine ⟨?_, ?_, by omega⟩
    · simp [decrementCredits, hd, hu, hnle]
    · simp [decrementCredits, hd, hu, hnle, lookupKey_setKey_self]

/-- Witness for C3 at concrete inputs: an unknown owner, a zero-balance
owner, and an owner with balance 2. -/
theorem claim_C3_decrement_witness :
    decrementCredits [] "d" 7 = (.error .userNotFound, []) ∧
    decrementCredits [("d", ⟨"d", "CT", 0, 3, 0, 0, "free", []⟩)] "d" 7 =
      (.error .quotaExceeded, [("d", ⟨"d", "CT", 0, 3, 0, 0, "free", []⟩)]) ∧
    (decrementCredits [("d", ⟨"d", "CT", 2, 3, 0, 0, "free", []⟩)] "d" 7).1 = .ok 1 := by
  refine ⟨?_, ?_, ?_⟩
  · exact (claim_C3_decrement [] "d" 7 (by decide)).1 (by rfl)
  · exact (claim_C3_decrement [("d", ⟨"d", "CT", 0, 3, 0, 0, "free", []⟩)] "d" 7
      (by decide)).2.1 ⟨"d", "CT", 0, 3, 0, 0, "free", []⟩ (by rfl) (by rfl)
  · exact ((claim_C3_decrement [("d", ⟨"d", "CT", 2, 3, 0, 0, "free", []⟩)] "d" 7
      (by decide)).2.2 ⟨"d", "CT", 2, 3, 0, 0, "free", []⟩ (by rfl) (by decide)).1

/-- C7: `recordPurchase` fails with `USER_NOT_FOUND` for an unknown owner;
for a completed purchase it adds `calculateScansFromAmount amount` credits
(2 euro = 10, 5 euro = 30, 10 euro = 100, any other amount 0) and appends
exactly one history entry recording the balance before and after; with an
unmapped amount the balance is unchanged apart from that append. -/
theorem claim_C7_recordPurchase (users : Users) (d : String) (pd : PurchaseData)
    (now : Nat) (hd : d ≠ "") (hpid : pd.stripePaymentIntentId ≠ "")
    (hamt : pd.amount ≠ 0) :
    (lookupKey users d = none →
      recordPurchase users d pd now = (.error .userNotFound, users)) ∧
    (∀ u : UserRec, lookupKey users d = some u → pd.status = "completed" →
      lookupKey (recordPurchase users d pd now).2 d = some
        { u with remainingScans := u.remainingScans + calculateScansFromAmount pd.amount
                 plan := "premium"
                 lastUsedAt := now
                 purchaseHistory := u.purchaseHistory ++
                   [⟨pd.stripePaymentIntentId, calculateScansFromAmount pd.amount,
                     u.remainingScans,
                     u.remainingScans + calculateScansFromAmount pd.amount, now⟩] }) ∧
    (calculateScansFromAmount 2 = 10 ∧ calculateScansFromAmount 5 = 30 ∧
      calculateScansFromAmount 10 = 100) ∧
    (pd.amount ≠ 2 → pd.amount ≠ 5 → pd.amount ≠ 10 →
      calculateScansFromAmount pd.amount = 0) := by
  have hguard : ¬ (pd.stripePaymentIntentId = "" ∨ pd.amount = 0) := by
    simp [hpid, hamt]
  refine ⟨?_, ?_, ⟨by decide, by decide, by decide⟩, ?_⟩
  · intro h
    simp [recordPurchase, hd, hguard, h]
  · intro u hu hst
    simp [recordPurchase, hd, hguard, hu, hst, lookupKey_setKey_self]
  · intro h2 h5 h10
    simp [calculateScansFromAmount, h2, h5, h10]

/-- Witness for C7: a completed 5-euro purchase by a known owner with
balance 1 yields balance 31 and one appended history entry. -/
theorem claim_C7_recordPurchase_witness :
    lookupKey (recordPurchase [("d", ⟨"d", "CT", 1, 0, 0, 0, "free", []⟩)] "d"
        ⟨"pi_1", 5, "completed"⟩ 9).2 "d" =
      some ⟨"d", "CT", 31, 0, 0, 9, "premium", [⟨"pi_1", 30, 1, 31, 9⟩]⟩ := by
  have h := (claim_C7_recordPurchase [("d", ⟨"d", "CT", 1, 0, 0, 0, "free", []⟩)] "d"
      ⟨"pi_1", 5, "completed"⟩ 9 (by decide) (by decide) (by decide)).2.1
      ⟨"d", "CT", 1, 0, 0, 0, "free", []⟩ (by rfl) (by rfl)
  simpa [calculateScansFromAmount] using h

/-- C9: the `GET /report` handler is read-only — it returns the stored
artifact for a cached hash with the requested language, `NotFound`
otherwise, and in every case leaves the cache exactly unchanged (no
`lastAccessedAt` refresh, no insertion, no deletion); it takes no ledger
argument at all, so no credit can be debited. -/
theorem claim_C9_report_readonly (cache : Cache) (uh lang : String) :
    ((lookupCachedReport cache uh lang).2 = cache) ∧
    (∀ entry r, isHexString uh = true → lookupKey cache uh = some entry →
      lookupKey entry.reports (if lang = "fr" ∨ lang = "en" then lang else "en") =
        some r →
      (lookupCachedReport cache uh lang).1 = .okReport r) ∧
    (isHexString uh = true → lookupKey cache uh = none →
      (lookupCachedReport cache uh lang).1 = .notFound "Rapport non trouvé en cache") := by
  have hne : isHexString uh = true → ¬ uh = "" := by
    intro h he
    subst he
    simp [isHexString] at h
  refine ⟨?_, ?_, ?_⟩
  · unfold lookupCachedReport
    dsimp only
    repeat' split
    all_goals rfl
  · intro entry r hhex hent hrep
    simp [lookupCachedReport, hne hhex, hhex, hent, hrep]
  · intro hhex hent
    simp [lookupCachedReport, hne hhex, hhex, hent]

/-- Witness for C9: a one-entry cache holding a French report. -/
theorem claim_C9_report_readonly_witness :
    (lookupCachedReport [("ab12", ⟨"u", "dom", [("fr", ⟨some "S", true, none⟩)], 4, some 4⟩)]
        "ab12" "fr").1 = .okReport ⟨some "S", true, none⟩ ∧
    (lookupCachedReport [("ab12", ⟨"u", "dom", [("fr", ⟨some "S", true, none⟩)], 4, some 4⟩)]
        "ab12" "fr").2 =
      [("ab12", ⟨"u", "dom", [("fr", ⟨some "S", true, none⟩)], 4, some 4⟩)] := by
  constructor
  · exact (claim_C9_report_readonly
        [("ab12", ⟨"u", "dom", [("fr", ⟨some "S", true, none⟩)], 4, some 4⟩)] "ab12" "fr").2.1
      ⟨"u", "dom", [("fr", ⟨some "S", true, none⟩)], 4, some 4⟩ ⟨some "S", true, none⟩
      (by decide) (by rfl) (by rfl)
  · exact (claim_C9_report_readonly
        [("ab12", ⟨"u", "dom", [("fr", ⟨some "S", true, none⟩)], 4, some 4⟩)] "ab12" "fr").1

/-- C10: a `POST /scan` request by an owner whose stored balance is ≤ 0 is
rejected with `QUOTA_EXCEEDED` before any job is created: the response is
the quota error, the whole server state (job store, cache, ledger) is
returned unchanged, and the pipeline is not started. -/
theorem claim_C10_scan_quota_gate (env : Env) (req : ScanRequest) (s : ServerState)
    (u : UserRec) (hd : req.deviceId ≠ "")
    (hu : lookupKey s.users req.deviceId = some u) (hq : u.remainingScans ≤ 0) :
    submitJob env req s = ⟨.quotaExceeded, s, false⟩ := by
  simp [submitJob, continueScan, hd, hu, hq]

/-- Witness for C10 at a concrete zero-balance owner. -/
theorem claim_C10_scan_quota_gate_witness :
    submitJob
      ⟨0, "m", fun _ => "a", fun _ => "b", .ok "p", .ok "g", fun _ => .error "x",
        fun _ => .ok "h", "j1", fun u => .ok u⟩
      ⟨"", "c", "fr", "d"⟩
      ⟨⟨[], 1000, 3600000⟩, [], [("d", ⟨"d", "CT", 0, 3, 0, 0, "free", []⟩)]⟩ =
      ⟨.quotaExceeded,
        ⟨⟨[], 1000, 3600000⟩, [], [("d", ⟨"d", "CT", 0, 3, 0, 0, "free", []⟩)]⟩, false⟩ :=
  claim_C10_scan_quota_gate _ _ _ ⟨"d", "CT", 0, 3, 0, 0, "free", []⟩
    (by decide) (by rfl) (by decide)

/-- C5: storing an artifact under a hash not yet cached first enforces the
capacity bound — when `currentSize ≥ maxEntries`, exactly
`currentSize - maxEntries + 1` entries are evicted, all of them no more
recently accessed (by `lastAccessedAt`, falling back to `createdAt`) than
any retained entry — so the cache never grows beyond `maxEntries`, and the
least-recently-accessed entry is evicted first. -/
theorem claim_C5_cache_capacity (env : Env) (maxE : Nat) (uh lang url : String)
    (report : Report) (cache : Cache)
    (hnd : (cache.map Prod.fst).Nodup) (hmax : 1 ≤ maxE)
    (hnew : lookupKey cache uh = none) :
    (cache.length < maxE → enforceCacheLimit maxE cache = cache) ∧
    (maxE ≤ cache.length →
      (enforceCacheLimit maxE cache).length = maxE - 1 ∧
      cache.length - (enforceCacheLimit maxE cache).length =
        cache.length - maxE + 1) ∧
    (∀ p ∈ cache, p ∉ enforceCacheLimit maxE cache →
      ∀ q ∈ enforceCacheLimit maxE cache, effTime p.2 ≤ effTime q.2) ∧
    (cache.length ≤ maxE →
      (cacheStoreStep env maxE uh lang report url cache).1.length ≤ maxE) := by
  have hlow : cache.length < maxE → enforceCacheLimit maxE cache = cache := by
    intro h
    simp [enforceCacheLimit, h]
  have hhigh : maxE ≤ cache.length →
      (enforceCacheLimit maxE cache).length = maxE - 1 := by
    intro h
    have hnl : ¬ cache.length < maxE := by omega
    rw [enforceCacheLimit, if_neg hnl, evictOldest_length effTime _ hnd]
    omega
  refine ⟨hlow, ?_, ?_, ?_⟩
  · intro h
    have h1 := hhigh h
    exact ⟨h1, by omega⟩
  · intro p hp hpn q hq
    by_cases h : cache.length < maxE
    · rw [hlow h] at hpn
      exact absurd hp hpn
    · have hnl : ¬ cache.length < maxE := h
      rw [enforceCacheLimit, if_neg hnl] at hpn hq
      exact evictOldest_weight_le effTime _ hnd p hp hpn q hq
  · intro hle
    have hlim : (enforceCacheLimit maxE cache).length ≤ maxE - 1 ∨
        (enforceCacheLimit maxE cache).length = cache.length ∧ cache.length < maxE := by
      by_cases h : cache.length < maxE
      · right
        exact ⟨by rw [hlow h], h⟩
      · left
        rw [hhigh (by omega)]
    unfold cacheStoreStep
    rw [hnew]
    dsimp only
    split
    · simp only [List.length_nil]
      omega
    · simp only [List.length_append, List.length_cons, List.length_nil]
      omega

/-- Witness for C5: a three-entry cache at capacity 3; storing a fourth
subject evicts exactly one entry, the least recently accessed one. -/
theorem claim_C5_cache_capacity_witness :
    (enforceCacheLimit 3
        [("a", ⟨"u1", "d", [], 10, some 50⟩), ("b", ⟨"u2", "d", [], 20, none⟩),
         ("c", ⟨"u3", "d", [], 30, some 60⟩)]).length = 2 ∧
    (cacheStoreStep
        ⟨99, "m", fun _ => "a", fun _ => "b", .ok "p", .ok "g", fun _ => .error "x",
          fun _ => .ok "h", "j1", fun u => .ok u⟩ 3 "dd" "fr" ⟨some "S", true, none⟩ ""
        [("a", ⟨"u1", "d", [], 10, some 50⟩), ("b", ⟨"u2", "d", [], 20, none⟩),
         ("c", ⟨"u3", "d", [], 30, some 60⟩)]).1.length ≤ 3 := by
  have h := claim_C5_cache_capacity
    ⟨99, "m", fun _ => "a", fun _ => "b", .ok "p", .ok "g", fun _ => .error "x",
      fun _ => .ok "h", "j1", fun u => .ok u⟩ 3 "dd" "fr" ""
    ⟨some "S", true, none⟩
    [("a", ⟨"u1", "d", [], 10, some 50⟩), ("b", ⟨"u2", "d", [], 20, none⟩),
     ("c", ⟨"u3", "d", [], 30, some 60⟩)]
    (by decide) (by decide) (by rfl)
  refine ⟨?_, h.2.2.2 (by decide)⟩
  have h2 := (h.2.1 (by decide)).1
  simpa using h2

/-- C6: `JobManager.addJob` never rejects an insertion — the new job is
always present afterwards; with the configured bound (`maxJobs = 1000`,
and generally any `maxJobs ≥ 10` so that the 10% pass removes at least one
job) a store within its bound stays within it, the at-capacity path first
sweeping expired jobs and then force-removing the oldest tenth; and in the
force-eviction pass (`removeOldest`) no retained job is strictly older by
`createdAt` than any evicted job. -/
theorem claim_C6_jobstore (jm : JobManager) (id : String) (data : Job) (now : Nat)
    (hnd : (jm.jobs.map Prod.fst).Nodup) (hmax : 10 ≤ jm.maxJobs)
    (hlen : jm.jobs.length ≤ jm.maxJobs) :
    (jm.addJob id data now).getJob id = some { data with createdAt := now } ∧
    (jm.addJob id data now).jobs.length ≤ jm.maxJobs ∧
    (∀ (jm' : JobManager) (count : Nat), (jm'.jobs.map Prod.fst).Nodup →
      ∀ p ∈ jm'.jobs, p ∉ (jm'.removeOldest count).jobs →
        ∀ q ∈ (jm'.removeOldest count).jobs, p.2.createdAt ≤ q.2.createdAt) := by
  refine ⟨?_, ?_, ?_⟩
  · unfold JobManager.addJob JobManager.getJob
    dsimp only
    split
    · split <;> exact lookupKey_setKey_self _ _ _
    · exact lookupKey_setKey_self _ _ _
  · unfold JobManager.addJob
    dsimp only
    have hdiv : 1 ≤ jm.maxJobs / 10 := by omega
    by_cases h1 : jm.maxJobs ≤ jm.jobs.length
    · rw [if_pos h1]
      have hclean_le : ((jm.cleanup true now).jobs).length ≤ jm.jobs.length :=
        List.length_filter_le _ _
      have hclean_nd : (((jm.cleanup true now).jobs).map Prod.fst).Nodup := by
        have hsub : ((jm.cleanup true now).jobs).Sublist jm.jobs :=
          List.filter_sublist _
        exact hnd.sublist (hsub.map Prod.fst)
      by_cases h2 : jm.maxJobs ≤ ((jm.cleanup true now).jobs).length
      · rw [if_pos h2]
        have hro : (((jm.cleanup true now).removeOldest (jm.maxJobs / 10)).jobs).length =
            ((jm.cleanup true now).jobs).length - jm.maxJobs / 10 := by
          unfold JobManager.removeOldest
          exact evictOldest_length _ _ hclean_nd
        have hsk := length_setKey_le id { data with createdAt := now }
          ((jm.cleanup true now).removeOldest (jm.maxJobs / 10)).jobs
        omega
      · rw [if_neg h2]
        have hsk := length_setKey_le id { data with createdAt := now }
          (jm.cleanup true now).jobs
        omega
    · rw [if_neg h1]
      have hsk := length_setKey_le id { data with createdAt := now } jm.jobs
      omega
  · intro jm' count hnd' p hp hpn q hq
    unfold JobManager.removeOldest at hpn hq
    exact evictOldest_weight_le (fun j => j.createdAt) count hnd' p hp hpn q hq

/-- Witness for C6: adding to a store at its (tiny example uses the real
configured bound 1000) capacity keeps the bound and inserts the job. -/
theorem claim_C6_jobstore_witness :
    ((⟨[], 1000, 3600000⟩ : JobManager).addJob "j"
        ⟨"queued", "u", "c", "fr", "d", none, none, false, 0⟩ 5).getJob "j" =
      some ⟨"queued", "u", "c", "fr", "d", none, none, false, 5⟩ ∧
    ((⟨[], 1000, 3600000⟩ : JobManager).addJob "j"
        ⟨"queued", "u", "c", "fr", "d", none, none, false, 0⟩ 5).jobs.length ≤ 1000 := by
  have h := claim_C6_jobstore ⟨[], 1000, 3600000⟩ "j"
    ⟨"queued", "u", "c", "fr", "d", none, none, false, 0⟩ 5
    (by decide) (by decide) (by decide)
  exact ⟨h.1, h.2.1⟩

theorem statusTrace_append (t1 t2 : List Ev) :
    statusTrace (t1 ++ t2) = statusTrace t1 ++ statusTrace t2 := by
  simp [statusTrace]

theorem providerPhase_inl {env : Env} {uh ch : String} {m1 m : Mid}
    (h : providerPhase env uh ch m1 = .inl m) :
    m.job.status = "done" ∧ m.job.result.isSome = true ∧
    m.job.error = m1.job.error ∧ m.job.creditDebited = m1.job.creditDebited ∧
    m.users = m1.users ∧
    m.trace = m1.trace ++ [Ev.providerCall, Ev.statusSet "done"] := by
  unfold providerPhase at h
  dsimp only at h
  split at h
  · simp at h
  · split at h
    · simp at h
    · split at h
      · simp at h
      · split at h
        · simp at h
        · injection h with h
          subst h
          simp

theorem providerPhase_inr {env : Env} {uh ch : String} {m1 m : Mid} {msg : String}
    (h : providerPhase env uh ch m1 = .inr (msg, m)) :
    m.job = m1.job ∧ m.users = m1.users ∧
    m.trace = m1.trace ++ [Ev.providerCall] := by
  unfold providerPhase at h
  dsimp only at h
  split at h
  · injection h with h
    injection h with h1 h2
    subst h2
    exact ⟨rfl, rfl, rfl⟩
  · split at h
    · injection h with h
      injection h with h1 h2
      subst h2
      exact ⟨rfl, rfl, rfl⟩
    · split at h
      · injection h with h
        injection h with h1 h2
        subst h2
        exact ⟨rfl, rfl, rfl⟩
      · split at h
        · injection h with h
          injection h with h1 h2
          subst h2
          exact ⟨rfl, rfl, rfl⟩
        · simp at h

/-- The three outcomes of the cache-miss continuation for a job with a
deviceId: prompt-load failure (state untouched), pre-flight debit failure
(immediate throw, no provider call), or a successful debit recorded by
`creditDebited := true` followed by the provider phase. -/
theorem missPhase_cases (env : Env) (uh ch : String) (m0 : Mid)
    (hdev : ¬ m0.job.deviceId = "") :
    (∃ msg, missPhase env uh ch m0 = .inr (msg, m0) ∧ env.loadPrompt = .error msg) ∨
    (∃ e, (decrementCredits m0.users m0.job.deviceId env.now).1 = Except.error e ∧
      missPhase env uh ch m0 = .inr ("Impossible de décrémenter les crédits",
        { m0 with trace := m0.trace ++ [Ev.debitFail] })) ∨
    (∃ n users', decrementCredits m0.users m0.job.deviceId env.now = (.ok n, users') ∧
      missPhase env uh ch m0 = providerPhase env uh ch
        { m0 with job := { m0.job with creditDebited := true }
                  users := users'
                  trace := m0.trace ++ [Ev.debitOk] }) := by
  unfold missPhase
  rcases hlp : env.loadPrompt with e | s
  · exact Or.inl ⟨e, rfl, rfl⟩
  · dsimp only
    rw [if_neg hdev]
    rcases hdc : decrementCredits m0.users m0.job.deviceId env.now with ⟨r, users'⟩
    rcases r with e | n
    · exact Or.inr (Or.inl ⟨e, rfl, rfl⟩)
    · exact Or.inr (Or.inr ⟨n, users', rfl, rfl⟩)

theorem missPhase_inl {env : Env} {uh ch : String} {m0 m : Mid}
    (h : missPhase env uh ch m0 = .inl m) :
    m.job.status = "done" ∧ m.job.result.isSome = true ∧
    m.job.error = m0.job.error ∧
    statusTrace m.trace = statusTrace m0.trace ++ ["done"] := by
  unfold missPhase at h
  split at h
  · simp at h
  · split at h
    · obtain ⟨h1, h2, h3, _, _, h6⟩ := providerPhase_inl h
      exact ⟨h1, h2, h3, by simp [h6, statusTrace_append, statusTrace]⟩
    · split at h
      · obtain ⟨h1, h2, h3, _, _, h6⟩ := providerPhase_inl h
        exact ⟨h1, h2, h3, by simp [h6, statusTrace_append, statusTrace]⟩
      · simp at h

theorem missPhase_inr {env : Env} {uh ch : String} {m0 m : Mid} {msg : String}
    (h : missPhase env uh ch m0 = .inr (msg, m)) :
    m.job.status = m0.job.status ∧ m.job.result = m0.job.result ∧
    m.job.error = m0.job.error ∧
    statusTrace m.trace = statusTrace m0.trace := by
  unfold missPhase at h
  split at h
  · injection h with h
    injection h with h1 h2
    subst h2
    exact ⟨rfl, rfl, rfl, rfl⟩
  · split at h
    · obtain ⟨h1, h2, h3⟩ := providerPhase_inr h
      rw [h1, h3]
      exact ⟨rfl, rfl, rfl, by simp [statusTrace_append, statusTrace]⟩
    · split at h
      · obtain ⟨h1, h2, h3⟩ := providerPhase_inr h
        rw [h1, h3]
        exact ⟨rfl, rfl, rfl, by simp [statusTrace_append, statusTrace]⟩
      · injection h with h
        injection h with h1 h2
        subst h2
        exact ⟨rfl, rfl, rfl, by simp [statusTrace_append, statusTrace]⟩

theorem tryBody_inl {env : Env} {m0 m : Mid} (h : tryBody env m0 = .inl m) :
    m.job.status = "done" ∧ m.job.result.isSome = true ∧
    m.job.error = m0.job.error ∧
    statusTrace m.trace = statusTrace m0.trace ++ ["done"] := by
  unfold tryBody at h
  dsimp only at h
  split at h
  · split at h
    · obtain ⟨a, b, c, d⟩ := missPhase_inl h
      exact ⟨a, b, c, d⟩
    · split at h
      · split at h
        · injection h with h
          subst h
          exact ⟨rfl, rfl, rfl, by simp [statusTrace_append, statusTrace]⟩
        · split at h
          · injection h with h
            subst h
            exact ⟨rfl, rfl, rfl, by simp [statusTrace_append, statusTrace]⟩
          · injection h with h
            subst h
            exact ⟨rfl, rfl, rfl, by simp [statusTrace_append, statusTrace]⟩
      · exact missPhase_inl h
  · exact missPhase_inl h

theorem tryBody_inr {env : Env} {m0 m : Mid} {msg : String}
    (h : tryBody env m0 = .inr (msg, m)) :
    m.job.status = m0.job.status ∧ m.job.result = m0.job.result ∧
    m.job.error = m0.job.error ∧
    statusTrace m.trace = statusTrace m0.trace := by
  unfold tryBody at h
  dsimp only at h
  split at h
  · split at h
    · obtain ⟨a, b, c, d⟩ := missPhase_inr h
      exact ⟨a, b, c, d⟩
    · split at h
      · split at h
        · simp at h
        · split at h
          · simp at h
          · simp at h
      · exact missPhase_inr h
  · exact missPhase_inr h

/-- C8: starting from a freshly created job (queued, no result, no error,
flag unset), one pipeline run moves the status strictly forward — the
statuses it assigns, in order, are exactly `running`, `running, done` or
`running, error`, with nothing assigned after a terminal status — and in
the final job `result` and `error` are never both set, `result` is set only
in `done` and `error` only in `error`; the only non-terminal outcome is the
run rejecting (its promise failing), which assigns nothing further. -/
theorem claim_C8_status_machine (env : Env) (jobId : String) (st : SysState)
    (job0 : Job) (hjob : lookupKey st.jobs jobId = some job0)
    (_hst : job0.status = "queued") (hres : job0.result = none)
    (herr : job0.error = none) :
    ∃ j, lookupKey (processJob env jobId st).st.jobs jobId = some j ∧
      (statusTrace (processJob env jobId st).trace = ["running"] ∨
       statusTrace (processJob env jobId st).trace = ["running", "done"] ∨
       statusTrace (processJob env jobId st).trace = ["running", "error"]) ∧
      ¬(j.result.isSome = true ∧ j.error.isSome = true) ∧
      (j.result.isSome = true → j.status = "done") ∧
      (j.error.isSome = true → j.status = "error") ∧
      (j.status = "done" ∨ j.status = "error" ∨
        (j.status = "running" ∧ (processJob env jobId st).rejected.isSome = true)) := by
  unfold processJob
  rw [hjob]
  dsimp only
  rcases htb : tryBody env
      ⟨{ job0 with status := "running" }, st.cache, st.users, [Ev.statusSet "running"]⟩
    with m | ⟨msg, m⟩
  · unfold finishRun
    dsimp only
    obtain ⟨h1, h2, h3, h4⟩ := tryBody_inl htb
    refine ⟨m.job, lookupKey_setKey_self _ _ _, ?_, ?_, ?_, ?_, ?_⟩
    · right; left
      rw [h4]
      rfl
    · rw [h3]
      simp [herr]
    · intro _
      exact h1
    · intro hcon
      rw [h3] at hcon
      simp [herr] at hcon
    · exact Or.inl h1
  · unfold finishRun
    dsimp only
    obtain ⟨h1, h2, h3, h4⟩ := tryBody_inr htb
    unfold catchBlock
    by_cases hcd : m.job.creditDebited
    · rw [if_pos hcd]
      dsimp only
      refine ⟨m.job, lookupKey_setKey_self _ _ _, ?_, ?_, ?_, ?_, ?_⟩
      · left
        rw [h4]
        rfl
      · rw [h2, h3]
        simp [hres]
      · intro hcon
        rw [h2] at hcon
        simp [hres] at hcon
      · intro hcon
        rw [h3] at hcon
        simp [herr] at hcon
      · right; right
        exact ⟨h1, rfl⟩
    · rw [if_neg hcd]
      dsimp only
      refine ⟨_, lookupKey_setKey_self _ _ _, ?_, ?_, ?_, ?_, ?_⟩
      · right; right
        rw [statusTrace_append, h4]
        rfl
      · rw [show ({ m.job with status := "error", error := some msg } : Job).result
            = m.job.result from rfl, h2]
        simp [hres]
      · intro hcon
        rw [show ({ m.job with status := "error", error := some msg } : Job).result
            = m.job.result from rfl, h2] at hcon
        simp [hres] at hcon
      · intro _
        rfl
      · exact Or.inr (Or.inl rfl)

/-- A cache miss as `processJob` sees it: no entry for the URL hash, an
expired entry (deleted on access), or a fresh entry without the requested
language. -/
def cacheMiss (env : Env) (cache : Cache) (job : Job) : Prop :=
  match lookupKey cache (env.urlHash job.url) with
  | none => True
  | some e => MAX_CACHE_AGE_MS < env.now - e.createdAt ∨
              lookupKey e.reports job.userLanguage = none

/-- Behaviour of the miss continuation assembled into a run result: a
failed pre-flight debit yields an immediate error terminal state with no
provider call, and any run that does call the provider debited first
(`debitOk` immediately precedes `providerCall` in the trace) and carries
`creditDebited = true` on the job. -/
theorem missRunSpec (env : Env) (jobId : String) (st : SysState) (job0 : Job)
    (uh ch : String) (m0' : Mid)
    (hjobeq : m0'.job = { job0 with status := "running" })
    (husers : m0'.users = st.users)
    (htrace : m0'.trace = [Ev.statusSet "running"])
    (hdev : ¬ job0.deviceId = "")
    (hcd : job0.creditDebited = false) :
    ((∃ s, env.loadPrompt = Except.ok s) →
      ∀ e, (decrementCredits st.users job0.deviceId env.now).1 = Except.error e →
      (finishRun jobId st (missPhase env uh ch m0')).rejected = none ∧
      Ev.providerCall ∉ (finishRun jobId st (missPhase env uh ch m0')).trace ∧
      lookupKey (finishRun jobId st (missPhase env uh ch m0')).st.jobs jobId = some
        { job0 with status := "error"
                    error := some "Impossible de décrémenter les crédits" } ∧
      (finishRun jobId st (missPhase env uh ch m0')).st.users = st.users) ∧
    (Ev.providerCall ∈ (finishRun jobId st (missPhase env uh ch m0')).trace →
      (∃ post, (finishRun jobId st (missPhase env uh ch m0')).trace =
        Ev.statusSet "running" :: Ev.debitOk :: Ev.providerCall :: post) ∧
      (∃ n, (decrementCredits st.users job0.deviceId env.now).1 = Except.ok n) ∧
      (∀ j, lookupKey (finishRun jobId st (missPhase env uh ch m0')).st.jobs jobId =
          some j → j.creditDebited = true)) := by
  have hdev' : ¬ m0'.job.deviceId = "" := by rw [hjobeq]; exact hdev
  have hcdm : ¬ m0'.job.creditDebited = true := by rw [hjobeq]; simp [hcd]
  have hdecEq : decrementCredits m0'.users m0'.job.deviceId env.now
      = decrementCredits st.users job0.deviceId env.now := by rw [husers, hjobeq]
  rcases missPhase_cases env uh ch m0' hdev' with
    ⟨msg, hmp, hlp⟩ | ⟨e0, hde0, hmp⟩ | ⟨n, users', hdc, hmp⟩
  · rw [hmp]
    unfold finishRun catchBlock
    dsimp only
    rw [if_neg hcdm]
    dsimp only
    constructor
    · rintro ⟨s, hs⟩ e _
      rw [hlp] at hs
      simp at hs
    · intro hmem
      exfalso
      rw [htrace] at hmem
      simp at hmem
  · rw [hmp]
    unfold finishRun catchBlock
    dsimp only
    rw [if_neg hcdm]
    dsimp only
    constructor
    · intro _ e _
      refine ⟨rfl, ?_, ?_, husers⟩
      · intro hmem
        rw [htrace] at hmem
        simp at hmem
      · rw [hjobeq]
        exact lookupKey_setKey_self _ _ _
    · intro hmem
      exfalso
      rw [htrace] at hmem
      simp at hmem
  · rw [hmp]
    rcases hpp : providerPhase env uh ch
        { m0' with job := { m0'.job with creditDebited := true }
                   users := users'
                   trace := m0'.trace ++ [Ev.debitOk] } with m | ⟨msg, m⟩
    · obtain ⟨p1, p2, p3, p4, p5, p6⟩ := providerPhase_inl hpp
      unfold finishRun
      dsimp only
      constructor
      · intro _ e hde
        exfalso
        rw [hdecEq] at hdc
        rw [hdc] at hde
        simp at hde
      · intro _
        refine ⟨⟨[Ev.statusSet "done"], ?_⟩, ⟨n, by rw [← hdecEq, hdc]⟩, ?_⟩
        · rw [p6]
          dsimp only
          rw [htrace]
          rfl
        · intro j hj
          rw [lookupKey_setKey_self] at hj
          injection hj with hj
          subst hj
          simpa using p4
    · obtain ⟨p1, p2, p3⟩ := providerPhase_inr hpp
      unfold finishRun catchBlock
      dsimp only
      rw [if_pos (by simp [p1])]
      dsimp only
      constructor
      · intro _ e hde
        exfalso
        rw [hdecEq] at hdc
        rw [hdc] at hde
        simp at hde
      · intro _
        refine ⟨⟨[], ?_⟩, ⟨n, by rw [← hdecEq, hdc]⟩, ?_⟩
        · rw [p3]
          dsimp only
          rw [htrace]
          rfl
        · intro j hj
          rw [lookupKey_setKey_self] at hj
          injection hj with hj
          subst hj
          simp [p1]

/-- C4: on a cache miss the pipeline debits one credit and sets
`creditDebited = true` strictly before invoking the provider — in every
run's trace a `providerCall` is immediately preceded by a successful
`debitOk` — and when the pre-flight debit fails the job moves immediately
to the `error` terminal state with the debit-failure message, the ledger
is unchanged and the provider is never called. -/
theorem claim_C4_preflight_debit (env : Env) (jobId : String) (st : SysState)
    (job0 : Job) (hjob : lookupKey st.jobs jobId = some job0)
    (hdev : ¬ job0.deviceId = "") (hcd : job0.creditDebited = false)
    (hmiss : cacheMiss env st.cache job0) :
    ((∃ s, env.loadPrompt = Except.ok s) →
      ∀ e, (decrementCredits st.users job0.deviceId env.now).1 = Except.error e →
      (processJob env jobId st).rejected = none ∧
      Ev.providerCall ∉ (processJob env jobId st).trace ∧
      lookupKey (processJob env jobId st).st.jobs jobId = some
        { job0 with status := "error"
                    error := some "Impossible de décrémenter les crédits" } ∧
      (processJob env jobId st).st.users = st.users) ∧
    (Ev.providerCall ∈ (processJob env jobId st).trace →
      (∃ post, (processJob env jobId st).trace =
        Ev.statusSet "running" :: Ev.debitOk :: Ev.providerCall :: post) ∧
      (∃ n, (decrementCredits st.users job0.deviceId env.now).1 = Except.ok n) ∧
      (∀ j, lookupKey (processJob env jobId st).st.jobs jobId = some j →
        j.creditDebited = true)) := by
  unfold processJob
  rw [hjob]
  dsimp only
  unfold tryBody
  dsimp only
  unfold cacheMiss at hmiss
  rcases hc : lookupKey st.cache (env.urlHash job0.url) with _ | entry
  · exact missRunSpec env jobId st job0 _ _ _ rfl rfl rfl hdev hcd
  · rw [hc] at hmiss
    dsimp only at hmiss
    split
    next h1 =>
      injection h1 with h1
      subst h1
      split
      next =>
        exact missRunSpec env jobId st job0 _ _ _ rfl rfl rfl hdev hcd
      next hf =>
        rcases hmiss with hexp | hnol
        · exact absurd hexp hf
        · rw [hnol]
          exact missRunSpec env jobId st job0 _ _ _ rfl rfl rfl hdev hcd
    next h2 =>
      simp at h2

/-! ### Concrete fixtures used by witnesses and counterexamples -/

/-- A well-formed provider artifact. -/
def sampleReport : Report := ⟨some "S", true, none⟩

/-- An oracle in which every external call succeeds. -/
def sampleEnv : Env :=
  ⟨100, "m", fun _ => "aaaa", fun _ => "bbbb", .ok "p", .ok "g",
    fun _ => .ok sampleReport, fun _ => .ok "x.com", "j1", fun u => .ok u⟩

/-- The same oracle with the provider failing (all fallbacks exhausted). -/
def sampleEnvProviderDown : Env := { sampleEnv with gemini := .error "Provider down" }

/-- A freshly queued job for owner `d`. -/
def sampleJob : Job := ⟨"queued", "http://x.com", "cc", "fr", "d", none, none, false, 0⟩

/-- An owner record with the given balance. -/
def sampleUser (bal : Int) : UserRec := ⟨"d", "CT", bal, 0, 0, 0, "free", []⟩

/-- Metadata of a previously cached artifact. -/
def sampleMeta : ReportMeta := ⟨"aaaa", "old", 1, "http://x.com", "m", "fr", "ai"⟩

/-- A previously cached artifact (with metadata, so a hit re-stamps it). -/
def sampleCachedReport : Report := ⟨some "S", true, some sampleMeta⟩

/-- A fresh cache entry holding the French artifact for hash `aaaa`. -/
def sampleEntry : CacheEntry := ⟨"http://x.com", "x.com", [("fr", sampleCachedReport)], 50, some 50⟩

/-- Witness for C8: a run in which everything succeeds, applied to a fresh
queued job. -/
theorem claim_C8_status_machine_witness :
    ∃ j, lookupKey (processJob sampleEnv "j1"
        ⟨[("j1", sampleJob)], [], [("d", sampleUser 5)]⟩).st.jobs "j1" = some j ∧
      (statusTrace (processJob sampleEnv "j1"
          ⟨[("j1", sampleJob)], [], [("d", sampleUser 5)]⟩).trace = ["running"] ∨
       statusTrace (processJob sampleEnv "j1"
          ⟨[("j1", sampleJob)], [], [("d", sampleUser 5)]⟩).trace = ["running", "done"] ∨
       statusTrace (processJob sampleEnv "j1"
          ⟨[("j1", sampleJob)], [], [("d", sampleUser 5)]⟩).trace = ["running", "error"]) ∧
      ¬(j.result.isSome = true ∧ j.error.isSome = true) ∧
      (j.result.isSome = true → j.status = "done") ∧
      (j.error.isSome = true → j.status = "error") ∧
      (j.status = "done" ∨ j.status = "error" ∨
        (j.status = "running" ∧ (processJob sampleEnv "j1"
          ⟨[("j1", sampleJob)], [], [("d", sampleUser 5)]⟩).rejected.isSome = true)) :=
  claim_C8_status_machine sampleEnv "j1" ⟨[("j1", sampleJob)], [], [("d", sampleUser 5)]⟩
    sampleJob (by rfl) (by rfl) (by rfl) (by rfl)

/-- Witness for C4: owner with balance 0, empty cache — the pre-flight
debit fails, the job errors, the provider is never called. -/
theorem claim_C4_preflight_debit_witness :
    (processJob sampleEnv "j1"
        ⟨[("j1", sampleJob)], [], [("d", sampleUser 0)]⟩).rejected = none ∧
    Ev.providerCall ∉ (processJob sampleEnv "j1"
        ⟨[("j1", sampleJob)], [], [("d", sampleUser 0)]⟩).trace ∧
    lookupKey (processJob sampleEnv "j1"
        ⟨[("j1", sampleJob)], [], [("d", sampleUser 0)]⟩).st.jobs "j1" = some
      { sampleJob with status := "error"
                       error := some "Impossible de décrémenter les crédits" } := by
  have h := (claim_C4_preflight_debit sampleEnv "j1"
      ⟨[("j1", sampleJob)], [], [("d", sampleUser 0)]⟩ sampleJob
      (by rfl) (by decide) (by rfl) (by trivial)).1
    ⟨"p", rfl⟩ LedgerErr.quotaExceeded (by rfl)
  exact ⟨h.1, h.2.1, h.2.2.1⟩

theorem decrementCredits_error_users (users : Users) (d : String) (now : Nat)
    {e : LedgerErr} (h : (decrementCredits users d now).1 = Except.error e) :
    (decrementCredits users d now).2 = users := by
  by_cases h0 : d = ""
  · simp [decrementCredits, h0]
  · rcases hu : lookupKey users d with _ | u
    · simp [decrementCredits, h0, hu]
    · by_cases hb : u.remainingScans ≤ 0
      · simp [decrementCredits, h0, hu, hb]
      · exfalso
        simp [decrementCredits, h0, hu, hb] at h

/-- C2 (amended): on a cache hit within TTL, a failing debit is caught and
only logged — the job still completes as `done` with the cached artifact
(re-stamped with `source = "cache"`), the ledger is unchanged (nothing
debited, nothing refunded), the failed debit is visible in the trace, and
no refund is issued. -/
theorem claim_C2_cachehit_swallows_debit_failure (env : Env) (jobId : String)
    (st : SysState) (job0 : Job) (entry : CacheEntry) (r : Report) (e : LedgerErr)
    (hjob : lookupKey st.jobs jobId = some job0)
    (hdev : ¬ job0.deviceId = "")
    (hent : lookupKey st.cache (env.urlHash job0.url) = some entry)
    (hfresh : ¬ MAX_CACHE_AGE_MS < env.now - entry.createdAt)
    (hrep : lookupKey entry.reports job0.userLanguage = some r)
    (hdf : (decrementCredits st.users job0.deviceId env.now).1 = Except.error e) :
    (processJob env jobId st).rejected = none ∧
    lookupKey (processJob env jobId st).st.jobs jobId = some
      { job0 with status := "done"
                  result := some (markCacheSource (env.contentHash job0.content) r) } ∧
    (processJob env jobId st).st.users = st.users ∧
    Ev.debitFail ∈ (processJob env jobId st).trace ∧
    Ev.refund ∉ (processJob env jobId st).trace := by
  have hdf' : decrementCredits st.users job0.deviceId env.now = (Except.error e, st.users) := by
    have h2 := decrementCredits_error_users st.users job0.deviceId env.now hdf
    rcases hd : decrementCredits st.users job0.deviceId env.now with ⟨r1, u1⟩
    rw [hd] at hdf h2
    dsimp only at hdf h2
    rw [hdf, h2]
  unfold processJob
  rw [hjob]
  dsimp only
  unfold tryBody
  dsimp only
  rw [hent]
  dsimp only
  rw [if_neg hfresh, hrep]
  dsimp only
  rw [if_neg hdev, hdf']
  dsimp only
  unfold finishRun
  dsimp only
  refine ⟨rfl, lookupKey_setKey_self _ _ _, rfl, ?_, ?_⟩
  · simp
  · simp

/-- C2 (counterexample to the claim as stated): owner `d` with balance 0,
fresh cache hit for the requested language — the claim predicts an `error`
terminal state with a quota reason, but the run completes `done` with the
cached artifact and the balance still 0. -/
theorem claim_C2_counterexample :
    (lookupKey (processJob sampleEnv "j1"
        ⟨[("j1", sampleJob)], [("aaaa", sampleEntry)], [("d", sampleUser 0)]⟩).st.jobs
      "j1").map Job.status = some "done" ∧
    ¬ ((lookupKey (processJob sampleEnv "j1"
        ⟨[("j1", sampleJob)], [("aaaa", sampleEntry)], [("d", sampleUser 0)]⟩).st.jobs
      "j1").map Job.status = some "error") ∧
    (lookupKey (processJob sampleEnv "j1"
        ⟨[("j1", sampleJob)], [("aaaa", sampleEntry)], [("d", sampleUser 0)]⟩).st.users
      "d").map UserRec.remainingScans = some 0 := by
  refine ⟨rfl, ?_, rfl⟩
  intro hcon
  rw [show (lookupKey (processJob sampleEnv "j1"
      ⟨[("j1", sampleJob)], [("aaaa", sampleEntry)], [("d", sampleUser 0)]⟩).st.jobs
      "j1").map Job.status = some "done" from rfl] at hcon
  simp at hcon

/-- Witness for the amended C2 at the concrete counterexample state. -/
theorem claim_C2_cachehit_swallows_debit_failure_witness :
    (processJob sampleEnv "j1"
        ⟨[("j1", sampleJob)], [("aaaa", sampleEntry)], [("d", sampleUser 0)]⟩).rejected
      = none ∧
    lookupKey (processJob sampleEnv "j1"
        ⟨[("j1", sampleJob)], [("aaaa", sampleEntry)], [("d", sampleUser 0)]⟩).st.jobs
      "j1" = some
      { sampleJob with status := "done"
                       result := some (markCacheSource (sampleEnv.contentHash
                         sampleJob.content) sampleCachedReport) } ∧
    (processJob sampleEnv "j1"
        ⟨[("j1", sampleJob)], [("aaaa", sampleEntry)], [("d", sampleUser 0)]⟩).st.users
      = [("d", sampleUser 0)] ∧
    Ev.debitFail ∈ (processJob sampleEnv "j1"
        ⟨[("j1", sampleJob)], [("aaaa", sampleEntry)], [("d", sampleUser 0)]⟩).trace ∧
    Ev.refund ∉ (processJob sampleEnv "j1"
        ⟨[("j1", sampleJob)], [("aaaa", sampleEntry)], [("d", sampleUser 0)]⟩).trace :=
  claim_C2_cachehit_swallows_debit_failure sampleEnv "j1"
    ⟨[("j1", sampleJob)], [("aaaa", sampleEntry)], [("d", sampleUser 0)]⟩
    sampleJob sampleEntry sampleCachedReport LedgerErr.quotaExceeded
    (by rfl) (by decide) (by rfl) (by decide) (by rfl) (by rfl)

/-- C1 (code bug): a run that debited (`creditDebited = true`) and then
fails (provider down) never reaches the refund — the `catch` block's read
of `deviceId` (a `const` declared inside the `try` block, hence out of
scope) throws a `ReferenceError`, the promise rejects, the job is left in
`running` with no error recorded, and the owner stays charged: balance
goes 5 → 4 with no compensating credit and no refund event. -/
theorem claim_C1_refund_reference_error :
    (processJob sampleEnvProviderDown "j1"
        ⟨[("j1", sampleJob)], [], [("d", sampleUser 5)]⟩).rejected =
      some "ReferenceError: deviceId is not defined" ∧
    (lookupKey (processJob sampleEnvProviderDown "j1"
        ⟨[("j1", sampleJob)], [], [("d", sampleUser 5)]⟩).st.jobs "j1").map Job.status =
      some "running" ∧
    (lookupKey (processJob sampleEnvProviderDown "j1"
        ⟨[("j1", sampleJob)], [], [("d", sampleUser 5)]⟩).st.jobs "j1").map Job.error =
      some none ∧
    (lookupKey (processJob sampleEnvProviderDown "j1"
        ⟨[("j1", sampleJob)], [], [("d", sampleUser 5)]⟩).st.users "d").map
      UserRec.remainingScans = some 4 ∧
    Ev.debitOk ∈ (processJob sampleEnvProviderDown "j1"
        ⟨[("j1", sampleJob)], [], [("d", sampleUser 5)]⟩).trace ∧
    Ev.refund ∉ (processJob sampleEnvProviderDown "j1"
        ⟨[("j1", sampleJob)], [], [("d", sampleUser 5)]⟩).trace := by
  refine ⟨rfl, rfl, rfl, rfl, ?_, ?_⟩
  · rw [show (processJob sampleEnvProviderDown "j1"
        ⟨[("j1", sampleJob)], [], [("d", sampleUser 5)]⟩).trace =
      [Ev.statusSet "running", Ev.debitOk, Ev.providerCall] from rfl]
    simp
  · rw [show (processJob sampleEnvProviderDown "j1"
        ⟨[("j1", sampleJob)], [], [("d", sampleUser 5)]⟩).trace =
      [Ev.statusSet "running", Ev.debitOk, Ev.providerCall] from rfl]
    simp
